import Mathlib

/-!
Shallow embedding of the gossip-glomers node protocol engine
(src/node/src/core.rs, src/node/src/helper.rs) and of the broadcast
workload handlers (src/broadcast/src/main.rs), together with theorems
settling the frozen specification claims.

Machine integers are modelled as `Nat` with explicit `% 2^w` where the
source type's wrap-around matters (`msg_counter : u32`,
`uid_counter : Wrapping<u8>`, the `u64` bit packing of `gen_unique_id`).
Rust's `Result<T, Box<dyn Error>>` is modelled as `Except Error T`; a
handler `fn(&mut Node, Message) -> Result<Vec<Message>>` is modelled as a
function `Node → Message → Node × Result (List Message)` so the
post-state is always explicit.  The `HashMap<Type, Handler>` registry is
defunctionalised: the repository's finitely many handler functions become
the constructors of `HandlerRef`, the map becomes an association list
with first-match lookup.
-/

/-- The `Type` enum of src/node/src/core.rs (named `Ty` here because
`Type` is reserved in Lean): the recognizable body-variant tags, plus
`Invalid` for "received key is either not listed or missing". -/
inductive Ty where
  | Init
  | Echo
  | Generate
  | Broadcast
  | Read
  | Topology
  | Invalid
deriving DecidableEq, Repr

/-- The `Error` enum of src/node/src/helper.rs. -/
inductive Error where
  | KeyNotFound
  | HandlerNotFound (key : Ty)
  | ExpectedMessage (found : Ty) (expected : Ty)
  | NotInitializedYet
  | AlreadyInitialized
deriving DecidableEq, Repr

/-- The `Result` alias of src/node/src/helper.rs (`Result<T, Box<dyn
error::Error>>`), with the error type concretized to the `Error` enum
actually thrown by this core. -/
abbrev Result (α : Type) : Type := Except Error α

deriving instance DecidableEq for Except

/-- The `Workload` enum of src/node/src/core.rs.  `MessageId = u32`,
`CodeId = u32` and `BroadcastMessage = u64` are all modelled as `Nat`
(no claim depends on overflow of wire-carried ids).  The
`HashMap<NodeId, Vec<NodeId>>` in `Topology` is modelled as an
association list with first-match lookup. -/
inductive Workload where
  | Init (msg_id : Nat) (node_id : String) (node_ids : List String)
  | InitOk (in_reply_to : Nat)
  | Error (in_reply_to : Nat) (code : Nat) (text : String)
  | Echo (msg_id : Nat) (echo : String)
  | EchoOk (in_reply_to : Nat) (msg_id : Nat) (echo : String)
  | Generate (msg_id : Nat)
  | GenerateOk (in_reply_to : Nat) (msg_id : Nat) (id : String)
  | Broadcast (msg_id : Nat) (message : Nat)
  | BroadcastOk (in_reply_to : Nat) (msg_id : Nat)
  | Read (msg_id : Nat)
  | ReadOk (in_reply_to : Nat) (msg_id : Nat) (messages : List Nat)
  | Topology (msg_id : Nat) (topology : List (String × List String))
  | TopologyOk (in_reply_to : Nat) (msg_id : Nat)
deriving DecidableEq, Repr

/-- The `Message` struct of src/node/src/core.rs. -/
structure Message where
  src : String
  dest : String
  body : Workload
deriving DecidableEq, Repr

/-- `Workload::key` of src/node/src/core.rs: extract the variant tag,
failing with `KeyNotFound` on reply-only and `Error` variants. -/
def Workload.key : Workload → Result Ty
  | .Init _ _ _ => .ok .Init
  | .Echo _ _ => .ok .Echo
  | .Generate _ => .ok .Generate
  | .Broadcast _ _ => .ok .Broadcast
  | .Read _ => .ok .Read
  | .Topology _ _ => .ok .Topology
  | _ => .error .KeyNotFound

/-- The `key().unwrap_or(Type::Invalid)` idiom used in every handler's
defensive branch. -/
def Workload.keyOr (b : Workload) : Ty :=
  match b.key with
  | .ok k => k
  | .error _ => .Invalid

/-- Defunctionalised handler registry entries: the repository's handler
functions (`Node::handler_init` from core.rs; `handler_echo` from
echo/src/main.rs; `handler_broadcast`, `handler_read`, `handler_topology`
from broadcast/src/main.rs).  The `handler_generate` of
uniqueids/src/main.rs consults the wall clock (`SystemTime::now`) and can
panic on identity parsing, so `gen_unique_id` is modelled separately as a
pure function of an explicit timestamp (`Node.gen_unique_id` below). -/
inductive HandlerRef where
  | init
  | echo
  | broadcast
  | read
  | topology
deriving DecidableEq, Repr

/-- The `Node` struct of src/node/src/core.rs.  `msg_counter : u32` and
`uid_counter : Wrapping<u8>` are `Nat`s kept in range by explicit mod;
the handler map is an association list over `HandlerRef`.
The `neighbors` field is Modelled from the spec: the field and its
accessors are declared on `Node` only through their call sites in
src/broadcast/src/main.rs (`node.neighbors()`, `node.set_neighbors(..)`)
and are missing from src/node/src/core.rs; spec section 3 describes it as
`neighbors: list<NodeIdentifier>`, "empty until a `Topology` message
arrives". -/
structure Node where
  node_id : Option String
  node_ids : Option (List String)
  handlers : List (Ty × HandlerRef)
  msg_counter : Nat
  uid_counter : Nat
  broadcast_messages : List Nat
  neighbors : List String
deriving DecidableEq, Repr

/-- First-match association-list lookup, modelling `HashMap::get`. -/
def lookupH : List (Ty × HandlerRef) → Ty → Option HandlerRef
  | [], _ => none
  | (k, h) :: rest, t => if k = t then some h else lookupH rest t

/-- Key removal, modelling `HashMap::remove`. -/
def removeH (hs : List (Ty × HandlerRef)) (t : Ty) : List (Ty × HandlerRef) :=
  hs.filter (fun p => p.1 != t)

/-- First-match association-list lookup-and-take for the topology map,
modelling `HashMap::remove(&node_id)`'s returned value (the map itself is
a local that is dropped, so only the returned entry matters). -/
def lookupTopo : List (String × List String) → String → Option (List String)
  | [], _ => none
  | (k, v) :: rest, t => if k = t then some v else lookupTopo rest t

/-- `Node::new` of src/node/src/core.rs: `entry(Type::Init).or_insert`
installs the built-in init handler only when the supplied map has no
`Init` entry; all other state starts empty/zero. -/
def Node.new (handlers : List (Ty × HandlerRef)) : Node :=
  { node_id := none
    node_ids := none
    handlers :=
      match lookupH handlers Ty.Init with
      | some _ => handlers
      | none => (Ty.Init, HandlerRef.init) :: handlers
    msg_counter := 0
    uid_counter := 0
    broadcast_messages := []
    neighbors := [] }

/-- `Node::gen_msg_id`: increment `msg_counter : u32` (release-mode
wrap-around at 2^32) and return it. -/
def Node.gen_msg_id (n : Node) : Node × Nat :=
  let c := (n.msg_counter + 1) % 2 ^ 32
  ({ n with msg_counter := c }, c)

/-- `Node::node_id` (the method): the node's identity, or the empty
string if the node is not initialized.  Named `node_id_str` because the
field keeps the source field name `node_id`. -/
def Node.node_id_str (n : Node) : String :=
  n.node_id.getD ""

/-- `Node::reply`: build an outbound envelope whose `src` is the node's
own identity. -/
def Node.reply (n : Node) (dest : String) (body : Workload) : Message :=
  { src := n.node_id_str, dest := dest, body := body }

/-- `Node::is_initialized`. -/
def Node.is_initialized (n : Node) : Bool :=
  n.node_id.isSome && n.node_ids.isSome

/-- `Node::init`: store identity and peers and remove the `Init` handler
from the registry. -/
def Node.init (n : Node) (nid : String) (nids : List String) : Node :=
  { n with
    node_id := some nid
    node_ids := some nids
    handlers := removeH n.handlers Ty.Init }

/-- `Node::push_broadcast_message`. -/
def Node.push_broadcast_message (n : Node) (v : Nat) : Node :=
  { n with broadcast_messages := n.broadcast_messages ++ [v] }

/-- `Node::set_neighbors`.  Modelled from the spec: this accessor is
missing from src/node/src/core.rs and is known only through its call site
in src/broadcast/src/main.rs (`handler_topology`); per spec section 4.2
it "sets `neighbors` to that entry's list". -/
def Node.set_neighbors (n : Node) (nbs : List String) : Node :=
  { n with neighbors := nbs }

/-- `Node::handler_init` of src/node/src/core.rs: on an `Init` body,
initialize and reply `InitOk` (the reply is built after `init`, so its
`src` is the fresh identity); on any other body, fail with
`ExpectedMessage` without touching the state. -/
def handler_init (n : Node) (msg : Message) : Node × Result (List Message) :=
  match msg.body with
  | .Init mid nid nids =>
    let n1 := n.init nid nids
    (n1, .ok [n1.reply msg.src (.InitOk mid)])
  | b => (n, .error (.ExpectedMessage b.keyOr .Init))

/-- `handler_echo` of src/echo/src/main.rs (its source signature returns
a single `Message`; it is lifted to a singleton list to fit the `Handler`
type of core.rs, which the transport adapter iterates). -/
def handler_echo (n : Node) (msg : Message) : Node × Result (List Message) :=
  match msg.body with
  | .Echo mid e =>
    let g := n.gen_msg_id
    (g.1, .ok [g.1.reply msg.src (.EchoOk mid g.2 e)])
  | b => (n, .error (.ExpectedMessage b.keyOr .Echo))

/-- The fan-out loop inside `broadcast_message` of
src/broadcast/src/main.rs: for every neighbor other than the sender,
generate a fresh `msg_id` and address a `Broadcast` carrying the value to
that neighbor, in neighbor-list order. -/
def fanOut (src : String) (v : Nat) : List String → Node → Node × List Message
  | [], n => (n, [])
  | nb :: rest, n =>
    if nb ≠ src then
      let g := n.gen_msg_id
      let r := fanOut src v rest g.1
      (r.1, g.1.reply nb (.Broadcast g.2 v) :: r.2)
    else
      fanOut src v rest n

/-- `broadcast_message` of src/broadcast/src/main.rs: if the value is
already in the log, do nothing and return no messages; otherwise append
it to the log and fan out to every neighbor other than the sender. -/
def broadcast_message (n : Node) (src : String) (v : Nat) : Node × List Message :=
  if v ∈ n.broadcast_messages then (n, [])
  else
    let n1 := n.push_broadcast_message v
    fanOut src v n1.neighbors n1

/-- `handler_broadcast` of src/broadcast/src/main.rs: ingest via
`broadcast_message`, then append one `BroadcastOk` reply (fresh `msg_id`,
`in_reply_to` the incoming `msg_id`) to the original sender. -/
def handler_broadcast (n : Node) (msg : Message) : Node × Result (List Message) :=
  match msg.body with
  | .Broadcast mid v =>
    let r := broadcast_message n msg.src v
    let g := r.1.gen_msg_id
    (g.1, .ok (r.2 ++ [g.1.reply msg.src (.BroadcastOk mid g.2)]))
  | b => (n, .error (.ExpectedMessage b.keyOr .Broadcast))

/-- `handler_read` of src/broadcast/src/main.rs: reply `ReadOk` carrying
a snapshot of the broadcast log. -/
def handler_read (n : Node) (msg : Message) : Node × Result (List Message) :=
  match msg.body with
  | .Read mid =>
    let g := n.gen_msg_id
    (g.1, .ok [g.1.reply msg.src (.ReadOk mid g.2 g.1.broadcast_messages)])
  | b => (n, .error (.ExpectedMessage b.keyOr .Read))

/-- `handler_topology` of src/broadcast/src/main.rs: take this node's own
entry out of the supplied topology map (empty list when absent), install
it as the neighbor list, reply `TopologyOk`. -/
def handler_topology (n : Node) (msg : Message) : Node × Result (List Message) :=
  match msg.body with
  | .Topology mid topo =>
    let nbs := (lookupTopo topo n.node_id_str).getD []
    let n1 := n.set_neighbors nbs
    let g := n1.gen_msg_id
    (g.1, .ok [g.1.reply msg.src (.TopologyOk mid g.2)])
  | b => (n, .error (.ExpectedMessage b.keyOr .Topology))

/-- Interpretation of the defunctionalised registry entries. -/
def runHandler : HandlerRef → Node → Message → Node × Result (List Message)
  | .init, n, msg => handler_init n msg
  | .echo, n, msg => handler_echo n msg
  | .broadcast, n, msg => handler_broadcast n msg
  | .read, n, msg => handler_read n msg
  | .topology, n, msg => handler_topology n msg

/-- `Node::process` of src/node/src/core.rs: extract the tag (failures
propagate), enforce the initialization gate, look the handler up and run
it; a missing handler for `Init` on an initialized node reports
`AlreadyInitialized`, any other missing handler `HandlerNotFound`. -/
def Node.process (n : Node) (msg : Message) : Node × Result (List Message) :=
  match msg.body.key with
  | .error e => (n, .error e)
  | .ok k =>
    if ¬ n.is_initialized ∧ k ≠ Ty.Init then
      (n, .error .NotInitializedYet)
    else
      match lookupH n.handlers k with
      | some h => runHandler h n msg
      | none =>
        if n.is_initialized ∧ k = Ty.Init then
          (n, .error .AlreadyInitialized)
        else
          (n, .error (.HandlerNotFound k))

/-- The handler map built by `create_node` of src/broadcast/src/main.rs. -/
def bHandlers : List (Ty × HandlerRef) :=
  [(Ty.Broadcast, HandlerRef.broadcast),
   (Ty.Read, HandlerRef.read),
   (Ty.Topology, HandlerRef.topology)]

/-- `create_node` of src/broadcast/src/main.rs. -/
def create_node : Node :=
  Node.new bHandlers

/-- Accumulating decimal parse over a character list: fails on the first
non-digit, and on completion fails when the value overflows a `u64`
(the accumulator is monotone, so the final bound check is equivalent to
Rust's per-step overflow check). -/
def parse_digits_u64 (acc : Nat) : List Char → Option Nat
  | [] => if acc < 2 ^ 64 then some acc else none
  | c :: cs => if c.isDigit then parse_digits_u64 (acc * 10 + (c.toNat - 48)) cs else none

/-- Rust `str::parse::<u64>` restricted to the digit-only strings the
unique-id precondition guarantees (identity = one letter then digits):
the numeric value when the characters are all digits and fit in a `u64`,
`none` (a panic at the source's `unwrap`) otherwise; the empty string
fails. -/
def parse_u64 : List Char → Option Nat
  | [] => none
  | cs => parse_digits_u64 0 cs

/-- The `u64` bit packing inside `Node::gen_unique_id` of
src/node/src/core.rs, as a function of the millisecond timestamp, the
parsed node number and the (already incremented and wrapped) `u8`
counter: `part1 = (epoch << 30) >> 7` in `u64`, `part2 = (m << 8) &
0xFF00` in `u64`, `part3 = counter as u64`, ORed together. -/
def pack_unique_id (epoch m c : Nat) : Nat :=
  (((epoch <<< 30) % 2 ^ 64) >>> 7) ||| (((m <<< 8) % 2 ^ 64) &&& 0xFF00) ||| (c % 2 ^ 8)

/-- `Node::gen_unique_id` of src/node/src/core.rs with the wall clock as
an explicit input: parse the numeric suffix of the identity (dropping its
first character; `none` models the source's panic), increment the
wrapping `u8` counter, and return the packed word rendered in decimal. -/
def Node.gen_unique_id (n : Node) (epoch : Nat) : Option (Node × String) :=
  match parse_u64 (n.node_id_str.data.drop 1) with
  | none => none
  | some m =>
    let c := (n.uid_counter + 1) % 2 ^ 8
    some ({ n with uid_counter := c }, (pack_unique_id epoch m c).repr)

/-- The bit layout the claim asserts for the unique id (stated from the
spec's words, for comparison with `pack_unique_id`): the low 48 bits of
the timestamp occupying the high end of the 64-bit word, the low 8 bits
of the node number at bits 8-15, the 8-bit counter at bits 0-7. -/
def pack_unique_id_claimed (epoch m c : Nat) : Nat :=
  ((epoch % 2 ^ 48) <<< 16) ||| ((m % 2 ^ 8) <<< 8) ||| (c % 2 ^ 8)

/-- The layout the source arithmetic actually produces: the low 34 bits
of the timestamp occupying bits 23-56, the low 8 bits of the node number
at bits 8-15, the 8-bit counter at bits 0-7. -/
def pack_unique_id_actual_layout (epoch m c : Nat) : Nat :=
  ((epoch % 2 ^ 34) <<< 23) ||| ((m % 2 ^ 8) <<< 8) ||| (c % 2 ^ 8)

/-- Iterated `gen_msg_id`: the node after `k` calls. -/
def genIter (n : Node) : Nat → Node
  | 0 => n
  | k + 1 => (genIter n k).gen_msg_id.1

/-- The value returned by the `k`-th `gen_msg_id` call (`k ≥ 1`) on a
node, counting from its given state. -/
def callId (n : Node) (k : Nat) : Nat :=
  (genIter n (k - 1)).gen_msg_id.2

/-- Processing a list of messages in order, keeping the node state. -/
def foldProcess (n : Node) (msgs : List Message) : Node :=
  msgs.foldl (fun m msg => (m.process msg).1) n

/-- One inbound `Broadcast` in a run: sender, destination, `msg_id`,
carried value. -/
structure BIn where
  src : String
  dest : String
  mid : Nat
  val : Nat
deriving DecidableEq, Repr

/-- The envelope of one inbound `Broadcast`. -/
def mkBroadcastMsg (t : BIn) : Message :=
  { src := t.src, dest := t.dest, body := .Broadcast t.mid t.val }

/-- The spec-side characterization of the broadcast log: the distinct
values in first-seen order, each exactly once, appended onto an initial
log (first conjunct of spec section 8; the broadcast claim is settled by
comparing the code's log against this). -/
def dedupFS (l0 : List Nat) (vs : List Nat) : List Nat :=
  vs.foldl (fun acc v => if v ∈ acc then acc else acc ++ [v]) l0

/-- The state of the broadcast node after initialization with identity
`nid` and peers `nids`: the `create_node` registry (the built-in init
handler already removed again), message counter `ctr`, log `log`, no
neighbors installed. -/
def bNode (nid : String) (nids : List String) (ctr : Nat) (log : List Nat) : Node :=
  { node_id := some nid
    node_ids := some nids
    handlers := bHandlers
    msg_counter := ctr
    uid_counter := 0
    broadcast_messages := log
    neighbors := [] }

example : dedupFS [] [1000, 10, 1000] = [1000, 10] := by decide
example : Workload.key (.InitOk 1) = .error .KeyNotFound := by decide

theorem lookupH_removeH (hs : List (Ty × HandlerRef)) (t : Ty) :
    lookupH (removeH hs t) t = none := by
  induction hs with
  | nil => rfl
  | cons p rest ih =>
    rcases p with ⟨k, h⟩
    by_cases hp : k = t
    · subst hp
      simpa [removeH, List.filter] using ih
    · have hbne : (k != t) = true := by simp [hp]
      simpa [removeH, List.filter, hbne, lookupH, hp] using ih

theorem genIter_counter (n : Node) (h : n.msg_counter = 0) (k : Nat) :
    (genIter n k).msg_counter = k % 2 ^ 32 := by
  induction k with
  | zero => simpa [genIter] using h
  | succ k ih => simp [genIter, Node.gen_msg_id, ih, Nat.mod_add_mod]

theorem callId_eq (n : Node) (h : n.msg_counter = 0) (k : Nat) (hk : 1 ≤ k) :
    callId n k = k % 2 ^ 32 := by
  have hg : (genIter n (k - 1)).msg_counter = (k - 1) % 2 ^ 32 := genIter_counter n h _
  simp only [callId, Node.gen_msg_id, hg, Nat.mod_add_mod]
  congr 1
  omega

theorem pack_part1_eq (ts : Nat) :
    ((ts <<< 30) % 2 ^ 64) >>> 7 = (ts % 2 ^ 34) <<< 23 := by
  rw [Nat.shiftLeft_eq, Nat.shiftLeft_eq, Nat.shiftRight_eq_div_pow]
  rw [show (2 : Nat) ^ 64 = 2 ^ 34 * 2 ^ 30 from by norm_num,
    Nat.mul_mod_mul_right]
  rw [show (2 : Nat) ^ 30 = 2 ^ 23 * 2 ^ 7 from by norm_num, ← Nat.mul_assoc,
    Nat.mul_div_cancel _ (by norm_num)]

theorem pack_part2_eq (m : Nat) :
    ((m <<< 8) % 2 ^ 64) &&& 0xFF00 = (m % 2 ^ 8) <<< 8 := by
  apply Nat.eq_of_testBit_eq
  intro i
  rw [show (0xFF00 : Nat) = (2 ^ 8 - 1) <<< 8 from by norm_num [Nat.shiftLeft_eq]]
  simp only [Nat.testBit_land, Nat.testBit_mod_two_pow, Nat.testBit_shiftLeft,
    Nat.testBit_two_pow_sub_one]
  by_cases h8 : 8 ≤ i
  · by_cases h16 : i - 8 < 8
    · have h64 : i < 64 := by omega
      simp [h8, h16, h64, ge_iff_le]
    · simp [h8, h16, ge_iff_le]
  · simp [h8, ge_iff_le]

theorem pack_layout_eq (ts m c : Nat) :
    pack_unique_id ts m c = pack_unique_id_actual_layout ts m c := by
  unfold pack_unique_id pack_unique_id_actual_layout
  rw [pack_part1_eq, pack_part2_eq]

theorem bNode_init (s d nid : String) (nids : List String) (mid : Nat) :
    create_node.process ⟨s, d, .Init mid nid nids⟩
      = (bNode nid nids 0 [], .ok [⟨nid, s, .InitOk mid⟩]) := rfl

theorem bNode_broadcast (nid : String) (nids : List String) (ctr : Nat) (log : List Nat)
    (s d : String) (mid v : Nat) :
    (bNode nid nids ctr log).process ⟨s, d, .Broadcast mid v⟩
      = (bNode nid nids ((ctr + 1) % 2 ^ 32) (if v ∈ log then log else log ++ [v]),
         .ok [⟨nid, s, .BroadcastOk mid ((ctr + 1) % 2 ^ 32)⟩]) := by
  by_cases hv : v ∈ log <;>
    simp [bNode, bHandlers, Node.process, Workload.key, lookupH, runHandler,
      handler_broadcast, broadcast_message, fanOut, Node.push_broadcast_message,
      Node.gen_msg_id, Node.reply, Node.node_id_str, Node.is_initialized, hv]

theorem bNode_read (nid : String) (nids : List String) (ctr : Nat) (log : List Nat)
    (s d : String) (mid : Nat) :
    (bNode nid nids ctr log).process ⟨s, d, .Read mid⟩
      = (bNode nid nids ((ctr + 1) % 2 ^ 32) log,
         .ok [⟨nid, s, .ReadOk mid ((ctr + 1) % 2 ^ 32) log⟩]) := rfl

theorem bNode_fold (inputs : List BIn) :
    ∀ (nid : String) (nids : List String) (ctr : Nat) (log : List Nat),
      ∃ ctr', foldProcess (bNode nid nids ctr log) (inputs.map mkBroadcastMsg)
        = bNode nid nids ctr' (dedupFS log (inputs.map BIn.val)) := by
  induction inputs with
  | nil => exact fun nid nids ctr log => ⟨ctr, rfl⟩
  | cons t ts ih =>
    intro nid nids ctr log
    have h1 : foldProcess (bNode nid nids ctr log) ((t :: ts).map mkBroadcastMsg)
        = foldProcess ((bNode nid nids ctr log).process (mkBroadcastMsg t)).1
            (ts.map mkBroadcastMsg) := rfl
    have h2 : ((bNode nid nids ctr log).process (mkBroadcastMsg t)).1
        = bNode nid nids ((ctr + 1) % 2 ^ 32)
            (if t.val ∈ log then log else log ++ [t.val]) := by
      rw [show mkBroadcastMsg t = ⟨t.src, t.dest, .Broadcast t.mid t.val⟩ from rfl,
        bNode_broadcast]
    have h3 : dedupFS log ((t :: ts).map BIn.val)
        = dedupFS (if t.val ∈ log then log else log ++ [t.val]) (ts.map BIn.val) := rfl
    rw [h1, h2, h3]
    exact ih nid nids _ _

theorem dedupFS_mem (vs : List Nat) :
    ∀ (l0 : List Nat) (x : Nat), x ∈ dedupFS l0 vs ↔ x ∈ l0 ∨ x ∈ vs := by
  induction vs with
  | nil => simp [dedupFS]
  | cons v ws ih =>
    intro l0 x
    have h : dedupFS l0 (v :: ws) = dedupFS (if v ∈ l0 then l0 else l0 ++ [v]) ws := rfl
    rw [h]
    by_cases hv : v ∈ l0
    · rw [if_pos hv, ih]
      simp only [List.mem_cons]
      constructor
      · rintro (h1 | h1)
        · exact Or.inl h1
        · exact Or.inr (Or.inr h1)
      · rintro (h1 | rfl | h1)
        · exact Or.inl h1
        · exact Or.inl hv
        · exact Or.inr h1
    · rw [if_neg hv, ih]
      simp [List.mem_append, List.mem_cons, or_assoc]

theorem dedupFS_nodup (vs : List Nat) :
    ∀ l0 : List Nat, l0.Nodup → (dedupFS l0 vs).Nodup := by
  induction vs with
  | nil => exact fun l0 h => h
  | cons v ws ih =>
    intro l0 h
    show (dedupFS (if v ∈ l0 then l0 else l0 ++ [v]) ws).Nodup
    by_cases hv : v ∈ l0
    · rw [if_pos hv]
      exact ih l0 h
    · rw [if_neg hv]
      apply ih
      rw [List.nodup_append]
      exact ⟨h, List.nodup_singleton v, by simpa using hv⟩

/-- C1: for every sequence of processed `Broadcast` messages carrying
values `v1..vn` (repeats allowed), a subsequent `Read` on the broadcast
node is answered with a `ReadOk` whose `messages` list is exactly the
distinct values in first-seen order (`dedupFS`), each exactly once
(`Nodup`, membership iff membership in the inputs); the log equals that
deduplicated list, so it never contains the same value twice. -/
theorem c1_read_distinct_first_seen (nid s0 d0 : String) (nids : List String) (mid0 : Nat)
    (inputs : List BIn) (rs rd : String) (rmid : Nat) :
    (∃ (fid : Nat) (n3 : Node),
      (foldProcess (create_node.process ⟨s0, d0, .Init mid0 nid nids⟩).1
          (inputs.map mkBroadcastMsg)).process ⟨rs, rd, .Read rmid⟩
        = (n3, .ok [⟨nid, rs, .ReadOk rmid fid (dedupFS [] (inputs.map BIn.val))⟩]))
    ∧ (foldProcess (create_node.process ⟨s0, d0, .Init mid0 nid nids⟩).1
          (inputs.map mkBroadcastMsg)).broadcast_messages
        = dedupFS [] (inputs.map BIn.val)
    ∧ (dedupFS [] (inputs.map BIn.val)).Nodup
    ∧ (∀ x, x ∈ dedupFS [] (inputs.map BIn.val) ↔ x ∈ inputs.map BIn.val) := by
  obtain ⟨ctr', hfold⟩ := bNode_fold inputs nid nids 0 []
  have hinit : (create_node.process ⟨s0, d0, .Init mid0 nid nids⟩).1 = bNode nid nids 0 [] := rfl
  rw [hinit, hfold]
  refine ⟨⟨(ctr' + 1) % 2 ^ 32, bNode nid nids ((ctr' + 1) % 2 ^ 32)
      (dedupFS [] (inputs.map BIn.val)), bNode_read ..⟩, rfl,
    dedupFS_nodup _ [] List.nodup_nil, fun x => ?_⟩
  simpa using dedupFS_mem (inputs.map BIn.val) [] x

/-- C2: a node with neighbor list `[a, b, c]` processing a `Broadcast`
from sender `a` carrying an unseen value produces exactly the fan-out
messages to `b` and to `c` (none to `a`), each a `Broadcast` with the
same value and a distinct freshly generated `msg_id`, followed by exactly
one `BroadcastOk` reply to `a` appended after the fan-out messages. -/
theorem c2_fanout_exact (nid : String) (nids : List String) (hs : List (Ty × HandlerRef))
    (ctr uc : Nat) (log : List Nat) (a b c d : String) (mid v : Nat)
    (hv : v ∉ log) (hb : b ≠ a) (hc : c ≠ a) :
    (handler_broadcast ⟨some nid, some nids, hs, ctr, uc, log, [a, b, c]⟩
        ⟨a, d, .Broadcast mid v⟩).2
      = .ok [⟨nid, b, .Broadcast ((ctr + 1) % 2 ^ 32) v⟩,
             ⟨nid, c, .Broadcast ((ctr + 2) % 2 ^ 32) v⟩,
             ⟨nid, a, .BroadcastOk mid ((ctr + 3) % 2 ^ 32)⟩]
    ∧ (ctr + 1) % 2 ^ 32 ≠ (ctr + 2) % 2 ^ 32 := by
  constructor
  · simp [handler_broadcast, broadcast_message, hv, fanOut, hb, hc,
      Node.push_broadcast_message, Node.gen_msg_id, Node.reply, Node.node_id_str,
      Nat.mod_add_mod, Nat.add_assoc]
  · omega

/-- C2 witness at a concrete node and message. -/
theorem c2_fanout_exact_witness :
    (5 ∉ ([10] : List Nat)) ∧ ("b" ≠ "a") ∧ ("c" ≠ "a") ∧
    ((handler_broadcast ⟨some "n1", some [], [], 7, 0, [10], ["a", "b", "c"]⟩
        ⟨"a", "n1", .Broadcast 42 5⟩).2
      = .ok [⟨"n1", "b", .Broadcast ((7 + 1) % 2 ^ 32) 5⟩,
             ⟨"n1", "c", .Broadcast ((7 + 2) % 2 ^ 32) 5⟩,
             ⟨"n1", "a", .BroadcastOk 42 ((7 + 3) % 2 ^ 32)⟩]
    ∧ (7 + 1) % 2 ^ 32 ≠ (7 + 2) % 2 ^ 32) :=
  ⟨by decide, by decide, by decide,
   c2_fanout_exact "n1" [] [] 7 0 [10] "a" "b" "c" "n1" 42 5
     (by decide) (by decide) (by decide)⟩

/-- C6: for every node state in which the value is already in the
seen-values log, processing a `Broadcast` carrying that value produces
zero fan-out messages and leaves the log (and everything except the
message counter) unchanged, while still returning exactly one
`BroadcastOk` reply to the sender. -/
theorem c6_seen_value_idempotent (onid : Option String) (onids : Option (List String))
    (hs : List (Ty × HandlerRef)) (ctr uc : Nat) (log : List Nat) (nbs : List String)
    (s d : String) (mid v : Nat) (hv : v ∈ log) :
    handler_broadcast ⟨onid, onids, hs, ctr, uc, log, nbs⟩ ⟨s, d, .Broadcast mid v⟩
      = (⟨onid, onids, hs, (ctr + 1) % 2 ^ 32, uc, log, nbs⟩,
         .ok [⟨onid.getD "", s, .BroadcastOk mid ((ctr + 1) % 2 ^ 32)⟩]) := by
  simp [handler_broadcast, broadcast_message, hv, Node.gen_msg_id, Node.reply,
    Node.node_id_str]

/-- C6 witness at a concrete node and message. -/
theorem c6_seen_value_idempotent_witness :
    (10 ∈ ([1000, 10] : List Nat)) ∧
    handler_broadcast ⟨some "n1", some ["n1"], [], 3, 0, [1000, 10], ["n2"]⟩
        ⟨"c1", "n1", .Broadcast 9 10⟩
      = (⟨some "n1", some ["n1"], [], (3 + 1) % 2 ^ 32, 0, [1000, 10], ["n2"]⟩,
         .ok [⟨"n1", "c1", .BroadcastOk 9 ((3 + 1) % 2 ^ 32)⟩]) :=
  ⟨by decide,
   c6_seen_value_idempotent (some "n1") (some ["n1"]) [] 3 0 [1000, 10] ["n2"]
     "c1" "n1" 9 10 (by decide)⟩

/-- C7: an initialized node processing a `Topology` message installs as
neighbors the entry for its own identity in the supplied map (the empty
list when its identity is absent, other entries being irrelevant to the
lookup) and replies `TopologyOk`; and with an empty neighbor list
installed, every subsequent `Broadcast` produces zero fan-out messages,
only the ok reply. -/
theorem c7_topology_sets_neighbors :
    (∀ (nid : String) (onids : Option (List String)) (hs : List (Ty × HandlerRef))
       (ctr uc : Nat) (log : List Nat) (nbs0 : List String) (s d : String) (mid : Nat)
       (topo : List (String × List String)),
      handler_topology ⟨some nid, onids, hs, ctr, uc, log, nbs0⟩ ⟨s, d, .Topology mid topo⟩
        = (⟨some nid, onids, hs, (ctr + 1) % 2 ^ 32, uc, log, (lookupTopo topo nid).getD []⟩,
           .ok [⟨nid, s, .TopologyOk mid ((ctr + 1) % 2 ^ 32)⟩]))
    ∧ (∀ (onid : Option String) (onids : Option (List String))
         (hs : List (Ty × HandlerRef)) (ctr uc : Nat) (log : List Nat)
         (s d : String) (mid v : Nat),
      (handler_broadcast ⟨onid, onids, hs, ctr, uc, log, []⟩ ⟨s, d, .Broadcast mid v⟩).2
        = .ok [⟨onid.getD "", s, .BroadcastOk mid ((ctr + 1) % 2 ^ 32)⟩]) := by
  constructor
  · intro nid onids hs ctr uc log nbs0 s d mid topo
    simp [handler_topology, Node.set_neighbors, Node.gen_msg_id, Node.reply,
      Node.node_id_str]
  · intro onid onids hs ctr uc log s d mid v
    by_cases hv : v ∈ log <;>
      simp [handler_broadcast, broadcast_message, fanOut, Node.push_broadcast_message,
        Node.gen_msg_id, Node.reply, Node.node_id_str, hv]

/-- C3: a freshly constructed node rejects every message whose body tag
is recognized but is not `Init` with `NotInitializedYet`, its state
unchanged; after one successful `Init` (built-in handler, which the
success removed from the registry) a second `Init` fails with
`AlreadyInitialized`, state unchanged; and on the broadcast node the
very `Broadcast` message that failed before initialization succeeds
after it. -/
theorem c3_init_gating :
    (∀ (handlers : List (Ty × HandlerRef)) (msg : Message) (k : Ty),
      msg.body.key = .ok k → k ≠ Ty.Init →
      (Node.new handlers).process msg = (Node.new handlers, .error .NotInitializedYet))
    ∧ (∀ (handlers : List (Ty × HandlerRef)) (s d nid : String) (nids : List String)
         (mid : Nat),
      lookupH handlers Ty.Init = none →
      ((Node.new handlers).process ⟨s, d, .Init mid nid nids⟩).2
          = .ok [⟨nid, s, .InitOk mid⟩]
      ∧ ∀ (s2 d2 nid2 : String) (nids2 : List String) (mid2 : Nat),
          (((Node.new handlers).process ⟨s, d, .Init mid nid nids⟩).1).process
              ⟨s2, d2, .Init mid2 nid2 nids2⟩
            = (((Node.new handlers).process ⟨s, d, .Init mid nid nids⟩).1,
               .error .AlreadyInitialized))
    ∧ (∀ (s d nid : String) (nids : List String) (mid vmid v : Nat),
      create_node.process ⟨s, d, .Broadcast vmid v⟩
          = (create_node, .error .NotInitializedYet)
      ∧ ∃ out, ((create_node.process ⟨s, d, .Init mid nid nids⟩).1.process
            ⟨s, d, .Broadcast vmid v⟩).2 = .ok out) := by
  refine ⟨?_, ?_, ?_⟩
  · intro handlers msg k hk hne
    have hfresh : (Node.new handlers).is_initialized = false := by
      simp [Node.new, Node.is_initialized]
    simp [Node.process, hk, hfresh, hne]
  · intro handlers s d nid nids mid hl
    have hnew : Node.new handlers
        = { node_id := none, node_ids := none,
            handlers := (Ty.Init, HandlerRef.init) :: handlers,
            msg_counter := 0, uid_counter := 0, broadcast_messages := [],
            neighbors := [] } := by
      simp [Node.new, hl]
    have hstep : (Node.new handlers).process ⟨s, d, .Init mid nid nids⟩
        = ({ node_id := some nid, node_ids := some nids,
             handlers := removeH ((Ty.Init, HandlerRef.init) :: handlers) Ty.Init,
             msg_counter := 0, uid_counter := 0, broadcast_messages := [],
             neighbors := [] },
           .ok [⟨nid, s, .InitOk mid⟩]) := by
      rw [hnew]
      simp [Node.process, Workload.key, Node.is_initialized, lookupH, runHandler,
        handler_init, Node.init, Node.reply, Node.node_id_str]
    refine ⟨by rw [hstep], ?_⟩
    intro s2 d2 nid2 nids2 mid2
    rw [hstep]
    simp [Node.process, Workload.key, Node.is_initialized, lookupH_removeH]
  · intro s d nid nids mid vmid v
    refine ⟨rfl, [⟨nid, s, .BroadcastOk vmid ((0 + 1) % 2 ^ 32)⟩], ?_⟩
    rw [show (create_node.process ⟨s, d, .Init mid nid nids⟩).1
        = bNode nid nids 0 [] from rfl, bNode_broadcast]

/-- C3 witness at concrete handler maps and messages. -/
theorem c3_init_gating_witness :
    ((⟨"c1", "n1", .Echo 1 "hi"⟩ : Message).body.key = .ok Ty.Echo ∧ Ty.Echo ≠ Ty.Init ∧
      (Node.new []).process ⟨"c1", "n1", .Echo 1 "hi"⟩
        = (Node.new [], .error .NotInitializedYet))
    ∧ (lookupH [] Ty.Init = none ∧
      ((Node.new []).process ⟨"c1", "n1", .Init 1 "n1" ["n1"]⟩).2
          = .ok [⟨"n1", "c1", .InitOk 1⟩] ∧
      (((Node.new []).process ⟨"c1", "n1", .Init 1 "n1" ["n1"]⟩).1).process
          ⟨"c1", "n1", .Init 2 "n1" ["n1"]⟩
        = (((Node.new []).process ⟨"c1", "n1", .Init 1 "n1" ["n1"]⟩).1,
           .error .AlreadyInitialized))
    ∧ (create_node.process ⟨"c1", "n1", .Broadcast 5 1000⟩
          = (create_node, .error .NotInitializedYet)
      ∧ ∃ out, ((create_node.process ⟨"c1", "n1", .Init 1 "n1" ["n1"]⟩).1.process
            ⟨"c1", "n1", .Broadcast 5 1000⟩).2 = .ok out) :=
  ⟨⟨rfl, by decide, c3_init_gating.1 [] ⟨"c1", "n1", .Echo 1 "hi"⟩ Ty.Echo rfl (by decide)⟩,
   ⟨rfl, (c3_init_gating.2.1 [] "c1" "n1" "n1" ["n1"] 1 rfl).1,
     (c3_init_gating.2.1 [] "c1" "n1" "n1" ["n1"] 1 rfl).2 "c1" "n1" "n1" ["n1"] 2⟩,
   c3_init_gating.2.2 "c1" "n1" "n1" ["n1"] 1 5 1000⟩

/-- C8: every message whose body is a reply-only or error variant
(`InitOk`, `EchoOk`, `GenerateOk`, `BroadcastOk`, `ReadOk`, `TopologyOk`,
`Error`) makes `process` fail with `KeyNotFound` on every node state,
initialized or not, the state unchanged — tag extraction happens before
the initialization gate, so an uninitialized node also answers
`KeyNotFound`, not `NotInitializedYet`. -/
theorem c8_reply_only_key_not_found (n : Node) (s d : String)
    (a b code : Nat) (txt uid echoS : String) (ms : List Nat) :
    n.process ⟨s, d, .InitOk a⟩ = (n, .error .KeyNotFound)
    ∧ n.process ⟨s, d, .EchoOk a b echoS⟩ = (n, .error .KeyNotFound)
    ∧ n.process ⟨s, d, .GenerateOk a b uid⟩ = (n, .error .KeyNotFound)
    ∧ n.process ⟨s, d, .BroadcastOk a b⟩ = (n, .error .KeyNotFound)
    ∧ n.process ⟨s, d, .ReadOk a b ms⟩ = (n, .error .KeyNotFound)
    ∧ n.process ⟨s, d, .TopologyOk a b⟩ = (n, .error .KeyNotFound)
    ∧ n.process ⟨s, d, .Error a code txt⟩ = (n, .error .KeyNotFound) :=
  ⟨rfl, rfl, rfl, rfl, rfl, rfl, rfl⟩

theorem runHandler_error_frozen (hr : HandlerRef) (n : Node) (msg : Message) (e : Error)
    (h : (runHandler hr n msg).2 = .error e) : (runHandler hr n msg).1 = n := by
  cases hr <;> cases hb : msg.body <;>
    simp_all [runHandler, handler_init, handler_echo, handler_broadcast,
      handler_read, handler_topology]

/-- C9: whenever `process` returns an error — any of `KeyNotFound`,
`NotInitializedYet`, `AlreadyInitialized`, `HandlerNotFound` or a
handler's `ExpectedMessage` — the node state after the call equals the
state before it: every failure is detected before any mutation. -/
theorem c9_error_atomicity (n : Node) (msg : Message) (e : Error)
    (h : (n.process msg).2 = .error e) : (n.process msg).1 = n := by
  revert h
  unfold Node.process
  rcases hk : msg.body.key with ek | k
  · exact fun _ => rfl
  · by_cases hg : ¬ n.is_initialized ∧ k ≠ Ty.Init
    · simp [hg]
    · simp only [if_neg hg]
      rcases hl : lookupH n.handlers k with _ | hr
      · intro _
        by_cases h2 : n.is_initialized ∧ k = Ty.Init <;> simp [h2]
      · exact fun h => runHandler_error_frozen hr n msg e h

/-- C9 witness: a concrete failing call leaves the concrete node
unchanged. -/
theorem c9_error_atomicity_witness :
    ((Node.new []).process ⟨"c1", "n1", .Echo 1 "hi"⟩).2 = .error .NotInitializedYet
    ∧ ((Node.new []).process ⟨"c1", "n1", .Echo 1 "hi"⟩).1 = Node.new [] :=
  ⟨rfl, c9_error_atomicity (Node.new []) ⟨"c1", "n1", .Echo 1 "hi"⟩ .NotInitializedYet rfl⟩

/-- C10: `Node::new` always leaves a handler registered for `Init`: the
built-in one exactly when the caller supplied none, and the caller's own
otherwise, in which case the registry is exactly the supplied map (the
built-in is never installed). -/
theorem c10_new_or_insert_init (handlers : List (Ty × HandlerRef)) :
    lookupH (Node.new handlers).handlers Ty.Init
        = some ((lookupH handlers Ty.Init).getD HandlerRef.init)
    ∧ (∀ h, lookupH handlers Ty.Init = some h →
        (Node.new handlers).handlers = handlers) := by
  constructor
  · cases hl : lookupH handlers Ty.Init with
    | none => simp [Node.new, hl, lookupH]
    | some h => simp [Node.new, hl]
  · intro h hl
    simp [Node.new, hl]

/-- C4 counterexample: at the realistic millisecond timestamp
1760227200000 (which exceeds 2^34), the word actually packed by
`gen_unique_id` differs from the claimed layout that puts the low 48
bits of the timestamp at the high end of the word; the concrete node
`n7` at that instant returns the decimal rendering of the actual word,
not of the claimed one. -/
theorem c4_unique_id_counterexample :
    pack_unique_id 1760227200000 7 1 ≠ pack_unique_id_claimed 1760227200000 7 1
    ∧ (Node.mk (some "n7") (some []) [] 0 0 [] []).gen_unique_id 1760227200000
        = some (Node.mk (some "n7") (some []) [] 0 1 [] [],
                (pack_unique_id 1760227200000 7 1).repr)
    ∧ (pack_unique_id 1760227200000 7 1).repr
        ≠ (pack_unique_id_claimed 1760227200000 7 1).repr := by
  exact ⟨by decide, rfl, by decide⟩

/-- C4 (amended): `gen_unique_id` returns the decimal rendering of the
64-bit word whose layout is the low 34 bits of the timestamp occupying
bits 23-56 — the net effect of shifting the timestamp left by 30 then
right by 7 in 64-bit arithmetic — ORed with the low 8 bits of the parsed
node number in bits 8-15 and the 8-bit wrapping counter in bits 0-7. -/
theorem c4_unique_id_layout :
    (∀ ts m c, pack_unique_id ts m c = pack_unique_id_actual_layout ts m c)
    ∧ (∀ (n : Node) (nid : String) (ts m : Nat),
        n.node_id = some nid → parse_u64 (nid.data.drop 1) = some m →
        n.gen_unique_id ts
          = some ({ n with uid_counter := (n.uid_counter + 1) % 2 ^ 8 },
                  (pack_unique_id ts m ((n.uid_counter + 1) % 2 ^ 8)).repr)) := by
  refine ⟨pack_layout_eq, ?_⟩
  intro n nid ts m h1 h2
  have h2t : parse_u64 nid.data.tail = some m := by simpa [List.drop_one] using h2
  simp [Node.gen_unique_id, Node.node_id_str, h1, h2t]

/-- C4 witness: the amended statement at the concrete node `n7`. -/
theorem c4_unique_id_layout_witness :
    ((Node.mk (some "n7") (some []) [] 0 0 [] []).node_id = some "n7"
      ∧ parse_u64 (("n7" : String).data.drop 1) = some 7)
    ∧ (Node.mk (some "n7") (some []) [] 0 0 [] []).gen_unique_id 1760227200000
        = some ({ Node.mk (some "n7") (some []) [] 0 0 [] [] with
                    uid_counter := (0 + 1) % 2 ^ 8 },
                (pack_unique_id 1760227200000 7 ((0 + 1) % 2 ^ 8)).repr) :=
  ⟨⟨rfl, by decide⟩,
   (c4_unique_id_layout).2 (Node.mk (some "n7") (some []) [] 0 0 [] []) "n7"
     1760227200000 7 rfl (by decide)⟩

/-- C5 counterexample: `msg_counter` is a `u32`, so over the concrete
sequence of 2^32 successive `gen_msg_id` calls on a fresh node the
counter wraps: the 2^32-nd call returns a `msg_id` strictly smaller than
the one the first call returned, refuting unbounded strict monotonicity. -/
theorem c5_msg_id_counterexample :
    callId (Node.new []) (2 ^ 32) < callId (Node.new []) 1 := by
  rw [callId_eq (Node.new []) rfl (2 ^ 32) (by norm_num),
    callId_eq (Node.new []) rfl 1 (by norm_num)]
  norm_num

/-- C5 (amended): across every sequence of fewer than 2^32 `gen_msg_id`
calls on one node, every returned `msg_id` is strictly greater than
every previously returned one; the counter starts at 0 and the first
call after construction returns 1. -/
theorem c5_msg_id_monotonic (handlers : List (Ty × HandlerRef)) :
    (Node.new handlers).msg_counter = 0
    ∧ callId (Node.new handlers) 1 = 1
    ∧ ∀ j k : Nat, 1 ≤ j → j < k → k < 2 ^ 32 →
        callId (Node.new handlers) j < callId (Node.new handlers) k := by
  refine ⟨rfl, ?_, ?_⟩
  · rw [callId_eq (Node.new handlers) rfl 1 (by norm_num)]
    norm_num
  · intro j k hj hjk hk
    rw [callId_eq (Node.new handlers) rfl j hj,
      callId_eq (Node.new handlers) rfl k (by omega),
      Nat.mod_eq_of_lt (by omega), Nat.mod_eq_of_lt hk]
    exact hjk

/-- C5 witness: the amended monotonicity at a concrete pair of calls. -/
theorem c5_msg_id_monotonic_witness :
    (1 ≤ 1 ∧ 1 < 2 ∧ 2 < 2 ^ 32)
    ∧ (Node.new []).msg_counter = 0
    ∧ callId (Node.new []) 1 = 1
    ∧ callId (Node.new []) 1 < callId (Node.new []) 2 :=
  ⟨⟨by norm_num, by norm_num, by norm_num⟩,
   (c5_msg_id_monotonic []).1, (c5_msg_id_monotonic []).2.1,
   (c5_msg_id_monotonic []).2.2 1 2 (by norm_num) (by norm_num) (by norm_num)⟩

/-- C10 witness: a caller-supplied `Init` handler takes precedence and
the built-in is not installed. -/
theorem c10_new_or_insert_init_witness :
    lookupH (Node.new [(Ty.Init, HandlerRef.echo)]).handlers Ty.Init
        = some ((lookupH [(Ty.Init, HandlerRef.echo)] Ty.Init).getD HandlerRef.init)
    ∧ (Node.new [(Ty.Init, HandlerRef.echo)]).handlers = [(Ty.Init, HandlerRef.echo)] :=
  ⟨(c10_new_or_insert_init [(Ty.Init, HandlerRef.echo)]).1,
   (c10_new_or_insert_init [(Ty.Init, HandlerRef.echo)]).2 HandlerRef.echo rfl⟩
